import Mathlib

/-!
Verification of the BookForge core engines: the manuscript structural parser
(`src/api/docx_generator.py`), the duplicated heading detector
(`src/api/document_processor.py`), and the print layout calculator with its
page-count estimator (`src/api/bookforge.py`).

Strings are shallowly embedded as `List Char` (one Python `str` character per
list entry, ASCII semantics for the character classes used by the regexes).
Python floats are modelled as exact rationals; Python `round` (banker's
rounding, round-half-to-even) is modelled by `pyRound`.
-/

set_option maxRecDepth 100000

namespace BookForge

/-! ## Character classes (ASCII model of the Python regex classes) -/

/-- Python whitespace class `\s` restricted to ASCII: space, tab, newline,
carriage return, vertical tab, form feed. Also the set stripped by `str.strip()`. -/
def isPyWhitespace (c : Char) : Bool :=
  c == ' ' || c == '\t' || c == '\n' || c == '\r' || c == '\x0b' || c == '\x0c'

/-- The alphanumeric characters (the "alphanumeric tokens" of the spec). -/
def isAlnum (c : Char) : Bool := c.isAlphanum

/-- Python `\w`: alphanumerics plus underscore (ASCII model). -/
def isWordChar (c : Char) : Bool := c.isAlphanum || c == '_'

/-- The regex class `[\w\s-]` used inside the chapter-heading patterns. -/
def isWordish (c : Char) : Bool := isWordChar c || isPyWhitespace c || c == '-'

/-- ASCII uppercase letter, the class `[A-Z]` (patterns are matched against
the uppercased line, so no case folding is needed there). -/
def isUpperAZ (c : Char) : Bool := 'A' ≤ c && c ≤ 'Z'

/-- The class `[IVX]` of roman-numeral letters used by `PART`/`ACT` patterns. -/
def isRoman (c : Char) : Bool := c == 'I' || c == 'V' || c == 'X'

/-- The scene-break ornament characters, regex class `[\*\-\~\#]`. -/
def isOrnamentChar (c : Char) : Bool := c == '*' || c == '-' || c == '~' || c == '#'

/-! ## Python `str.strip()` -/

/-- Drop leading whitespace (`str.lstrip()`). -/
def stripLeft (s : List Char) : List Char := s.dropWhile isPyWhitespace

/-- Drop trailing whitespace (`str.rstrip()`), by structural recursion. -/
def stripRight : List Char → List Char
  | [] => []
  | c :: cs =>
    match stripRight cs with
    | [] => if isPyWhitespace c then [] else [c]
    | d :: ds => c :: d :: ds

/-- Python `str.strip()`. -/
def strip (s : List Char) : List Char := stripRight (stripLeft s)

/-! ## Maximal character runs (the matches of `p+` with word boundaries)

`runs p s` is the list of maximal runs of characters satisfying `p` in `s`,
in order. `runs isWordChar` gives the matches of `re.findall(r"\b\w+\b", s)`,
and `runs isAlnum` gives the "alphanumeric tokens" the spec talks about. -/

/-- Worker: `cur` holds the (reversed) run currently being read. -/
def runsAux (p : Char → Bool) : List Char → List Char → List (List Char)
  | [], cur => if cur.isEmpty then [] else [cur.reverse]
  | c :: cs, cur =>
    if p c then runsAux p cs (c :: cur)
    else if cur.isEmpty then runsAux p cs []
    else cur.reverse :: runsAux p cs []

/-- The maximal runs of characters satisfying `p`. -/
def runs (p : Char → Bool) (s : List Char) : List (List Char) := runsAux p s []

/-- The alphanumeric tokens of a string. -/
def tokens (s : List Char) : List (List Char) := runs isAlnum s

/-! ## Layout calculator (`src/api/bookforge.py`) -/

/-- One entry of `TRIM_PRESETS`: named physical page size. -/
structure TrimPreset where
  width_in : ℚ
  height_in : ℚ
  target : String
  deriving DecidableEq, Repr

/-- One entry of `PAPER_STOCKS`: named paper type. -/
structure PaperStock where
  kdp : Bool
  ingram : Bool
  pages_per_inch : ℕ
  deriving DecidableEq, Repr

/-- The fixed `TRIM_PRESETS` table, as a lookup function (`dict.get` / `dict[...]`
is modelled by the `Option` result). -/
def TRIM_PRESETS (k : String) : Option TrimPreset :=
  if k = "5x8" then some ⟨5, 8, "trade"⟩
  else if k = "5.5x8.5" then some ⟨5.5, 8.5, "trade"⟩
  else if k = "6x9" then some ⟨6, 9, "trade"⟩
  else if k = "8.5x11" then some ⟨8.5, 11, "workbook"⟩
  else none

/-- The fixed `PAPER_STOCKS` table. -/
def PAPER_STOCKS (k : String) : Option PaperStock :=
  if k = "cream_55lb" then some ⟨true, true, 444⟩
  else if k = "white_50lb" then some ⟨true, true, 512⟩
  else none

/-- Python `round` on an exact value: round half to even (banker's rounding). -/
def pyRound (q : ℚ) : ℤ :=
  let f := ⌊q⌋
  let frac := q - f
  if frac < 1 / 2 then f
  else if 1 / 2 < frac then f + 1
  else if f % 2 = 0 then f else f + 1

/-- Python `round(x, 3)`: round to three decimal places. -/
def round3 (q : ℚ) : ℚ := (pyRound (q * 1000) : ℚ) / 1000

/-- `calc_spine_width_in(page_count, paper)`: spine width from page count and
paper stock; an unknown stock key falls back to the `cream_55lb` default
(`PAPER_STOCKS.get(paper, PAPER_STOCKS["cream_55lb"])`). -/
def calc_spine_width_in (page_count : ℤ) (paper : String) : ℚ :=
  let ppi := ((PAPER_STOCKS paper).getD ⟨true, true, 444⟩).pages_per_inch
  round3 ((page_count : ℚ) / (ppi : ℚ))

/-- Result record of `cover_dimensions`. -/
structure CoverDims where
  width_in : ℚ
  height_in : ℚ
  spine_in : ℚ
  deriving DecidableEq, Repr

/-- `cover_dimensions(trim_key, page_count, paper, bleed)`. The source indexes
`TRIM_PRESETS[trim_key]` directly, so an unknown trim key raises `KeyError`;
that raised error is modelled as `Except.error trim_key`. -/
def cover_dimensions (trim_key : String) (page_count : ℤ) (paper : String)
    (bleed : Bool) : Except String CoverDims :=
  match TRIM_PRESETS trim_key with
  | none => Except.error trim_key
  | some trim =>
    let bleed_in : ℚ := if bleed then 0.125 else 0
    let spine_in := calc_spine_width_in page_count paper
    Except.ok ⟨trim.width_in * 2 + spine_in + 2 * bleed_in,
               trim.height_in + 2 * bleed_in, spine_in⟩

/-- `suggested_gutter(page_count)`: gutter bracket by page count. -/
def suggested_gutter (page_count : ℤ) : ℚ :=
  if page_count < 150 then 0.6
  else if page_count < 300 then 0.7
  else if page_count < 500 then 0.8
  else 0.9

/-! ## Page-count estimator (`src/api/bookforge.py`) -/

/-- `estimate_wordcount`: `len(re.findall(r"\b\w+\b", txt))`, i.e. the number
of maximal `\w`-runs. (The source reads the text from a file first; text
extraction is an external collaborator, so the text is taken as input here.
Its `try/except` guards only that file I/O.) -/
def estimate_wordcount (txt : List Char) : ℕ := (runs isWordChar txt).length

/-- The two-bucket words-per-page heuristic of `guess_pages_from_wordcount`:
`350 if font_size_pt <= 11 else 300`. -/
def words_per_page (font_size_pt : ℚ) : ℚ := if font_size_pt ≤ 11 then 350 else 300

/-- `guess_pages_from_wordcount`: `None` when the word count is falsy
(`if not wc: return None`), otherwise `max(1, int(round(wc / wpp)))`. -/
def guess_pages_from_wordcount (txt : List Char) (font_size_pt : ℚ) : Option ℤ :=
  let wc := estimate_wordcount txt
  if wc = 0 then none
  else some (max 1 (pyRound ((wc : ℚ) / words_per_page font_size_pt)))

/-! ## Pattern catalog of the line classifier (`src/api/docx_generator.py`)

Each Python regex from `CHAPTER_PATTERNS`, `FRONT_MATTER_PATTERNS` and
`BACK_MATTER_PATTERNS` is translated to an executable matcher. `re.match`
anchors at the start only, so a pattern without `$` is a prefix match. The
patterns are matched against the uppercased stripped line, so literals are
matched case-sensitively against uppercase text. Where a trailing `X*` or
`X?` part of a pattern can match the empty string it imposes no constraint
on a prefix match, and a character class followed by a character outside the
class (`\s+` then `[A-Z]`, `[\w\s-]*` then `:`) matches exactly the maximal
run, so each matcher below is the exact existence condition of the regex
match. -/

/-- Consume a literal prefix, returning the rest of the input. -/
def eat : List Char → List Char → Option (List Char)
  | [], s => some s
  | c :: cs, d :: ds => if d = c then eat cs ds else none
  | _ :: _, [] => none

/-- Consume `\s+`: at least one whitespace character, maximally. -/
def eatWs1 : List Char → Option (List Char)
  | c :: cs => if isPyWhitespace c then some (cs.dropWhile isPyWhitespace) else none
  | [] => none

/-- Consume `CHAPTER\s+`. -/
def chapterHeadU (u : List Char) : Option (List Char) :=
  (eat ("CHAPTER".data) u).bind eatWs1

/-- `^CHAPTER\s+[A-Z]+[\w\s\-]*:` — after the first letter, the run of
`[\w\s-]` characters must be followed by a colon (`:` is outside the class,
so the quantified class matches exactly the maximal run). -/
def chapPat1 (u : List Char) : Bool :=
  match chapterHeadU u with
  | some (c :: r) =>
    isUpperAZ c &&
      (match r.dropWhile isWordish with
       | ':' :: _ => true
       | _ => false)
  | _ => false

/-- `^CHAPTER\s+\d+:`. -/
def chapPat2 (u : List Char) : Bool :=
  match chapterHeadU u with
  | some (c :: r) =>
    c.isDigit &&
      (match r.dropWhile Char.isDigit with
       | ':' :: _ => true
       | _ => false)
  | _ => false

/-- `^CHAPTER\s+[A-Z]+[\w\s\-]*$` — everything after the first letter must
lie in `[\w\s-]` up to the end of the line. -/
def chapPat3 (u : List Char) : Bool :=
  match chapterHeadU u with
  | some (c :: r) => isUpperAZ c && r.all isWordish
  | _ => false

/-- `^CHAPTER\s+\d+$`. -/
def chapPat4 (u : List Char) : Bool :=
  match chapterHeadU u with
  | some (c :: r) => c.isDigit && r.all Char.isDigit
  | _ => false

/-- Consume `PART\s+`. -/
def partHeadU (u : List Char) : Option (List Char) :=
  (eat ("PART".data) u).bind eatWs1

/-- `^PART\s+[IVX]+`. -/
def chapPat5 (u : List Char) : Bool :=
  match partHeadU u with
  | some (c :: _) => isRoman c
  | _ => false

/-- `^PART\s+\d+`. -/
def chapPat6 (u : List Char) : Bool :=
  match partHeadU u with
  | some (c :: _) => c.isDigit
  | _ => false

/-- `^PROLOGUE`. -/
def chapPat7 (u : List Char) : Bool := (eat ("PROLOGUE".data) u).isSome

/-- `^EPILOGUE`. -/
def chapPat8 (u : List Char) : Bool := (eat ("EPILOGUE".data) u).isSome

/-- `^INTERLUDE`. -/
def chapPat9 (u : List Char) : Bool := (eat ("INTERLUDE".data) u).isSome

/-- `^ACT\s+[IVX\d]+`. -/
def chapPat10 (u : List Char) : Bool :=
  match (eat ("ACT".data) u).bind eatWs1 with
  | some (c :: _) => isRoman c || c.isDigit
  | _ => false

/-- Any of `CHAPTER_PATTERNS` (all produce the same classification, so only
the disjunction matters). -/
def isChapterHeadingU (u : List Char) : Bool :=
  chapPat1 u || chapPat2 u || chapPat3 u || chapPat4 u || chapPat5 u ||
  chapPat6 u || chapPat7 u || chapPat8 u || chapPat9 u || chapPat10 u

/-- `^NOTE\s+TO\s+READER`. -/
def noteToReaderU (u : List Char) : Bool :=
  (((((eat ("NOTE".data) u).bind eatWs1).bind
    (eat ("TO".data))).bind eatWs1).bind (eat ("READER".data))).isSome

/-- The apostrophe character (inside the class `[\'S]`). -/
def apos : Char := Char.ofNat 39

/-- Consume `\s+NOTE`. -/
def authorNoteTail (r : List Char) : Bool :=
  ((eatWs1 r).bind (eat ("NOTE".data))).isSome

/-- `^AUTHOR[\'S]?\s+NOTE` — the class `[\'S]` matches one single character,
either an apostrophe or `S`, and is optional, so both alternatives are
tried. -/
def authorNoteU (u : List Char) : Bool :=
  match eat ("AUTHOR".data) u with
  | some r =>
    authorNoteTail r ||
      (match r with
       | c :: r2 => (c == apos || c == 'S') && authorNoteTail r2
       | [] => false)
  | none => false

/-- Any of `FRONT_MATTER_PATTERNS` (`$`-anchored ones are full-line
equalities). -/
def isFrontMatterU (u : List Char) : Bool :=
  u == ("DEDICATION".data) ||
  u == ("ACKNOWLEDGMENT".data) || u == ("ACKNOWLEDGMENTS".data) ||
  u == ("ACKNOWLEDGEMENT".data) || u == ("ACKNOWLEDGEMENTS".data) ||
  u == ("PREFACE".data) || u == ("FOREWORD".data) || u == ("INTRODUCTION".data) ||
  noteToReaderU u || authorNoteU u

/-- `^ABOUT\s+THE\s+AUTHOR`. -/
def aboutTheAuthorU (u : List Char) : Bool :=
  (((((eat ("ABOUT".data) u).bind eatWs1).bind
    (eat ("THE".data))).bind eatWs1).bind (eat ("AUTHOR".data))).isSome

/-- `^ALSO\s+BY`. -/
def alsoByU (u : List Char) : Bool :=
  (((eat ("ALSO".data) u).bind eatWs1).bind (eat ("BY".data))).isSome

/-- Any of `BACK_MATTER_PATTERNS`. -/
def isBackMatterU (u : List Char) : Bool :=
  aboutTheAuthorU u || alsoByU u ||
  (eat ("BIBLIOGRAPHY".data) u).isSome || (eat ("GLOSSARY".data) u).isSome ||
  u == ("INDEX".data) || u == ("NOTES".data) ||
  (eat ("APPENDIX".data) u).isSome || (eat ("AFTERWORD".data) u).isSome ||
  (eat ("BONUS".data) u).isSome

/-- The scene-break test of `detect_content_type`:
`re.match(r'^[\*\-\~\#]{3,}$', stripped) or stripped in ['***', '* * *', '---', '~~~']`. -/
def isSceneBreakLine (s : List Char) : Bool :=
  (decide (3 ≤ s.length) && s.all isOrnamentChar) ||
  s == ("***".data) || s == ("* * *".data) || s == ("---".data) || s == ("~~~".data)

/-! ## Line classifier and structural parser (`src/api/docx_generator.py`) -/

/-- The `ContentType` enumeration. -/
inductive ContentType where
  | TITLE
  | CHAPTER_HEADING
  | SECTION_HEADING
  | FRONT_MATTER_HEADING
  | BACK_MATTER_HEADING
  | PARAGRAPH
  | SCENE_BREAK
  | BLANK
  deriving DecidableEq, Repr

/-- The `ContentBlock` dataclass; note the dataclass default `level = 1`. -/
structure ContentBlock where
  content_type : ContentType
  text : List Char
  level : ℕ := 1
  deriving DecidableEq, Repr

/-- `detect_content_type(line)`: strip, then test scene break, chapter,
front-matter and back-matter patterns in order (patterns run against the
uppercased stripped line; the scene-break test runs against the stripped
line itself). -/
def detect_content_type (line : List Char) : ContentType × ℕ :=
  let stripped := strip line
  if stripped = [] then (ContentType.BLANK, 0)
  else
    let upper := stripped.map Char.toUpper
    if isSceneBreakLine stripped then (ContentType.SCENE_BREAK, 0)
    else if isChapterHeadingU upper then (ContentType.CHAPTER_HEADING, 1)
    else if isFrontMatterU upper then (ContentType.FRONT_MATTER_HEADING, 2)
    else if isBackMatterU upper then (ContentType.BACK_MATTER_HEADING, 2)
    else (ContentType.PARAGRAPH, 0)

/-- `re.sub(r'\s+', ' ', text)`: replace each maximal whitespace run by one
space. The flag records whether the previous character was whitespace. -/
def squeezeWs : List Char → Bool → List Char
  | [], _ => []
  | c :: cs, prevWs =>
    if isPyWhitespace c then
      if prevWs then squeezeWs cs true else ' ' :: squeezeWs cs true
    else c :: squeezeWs cs false

/-- Python `sep.join(parts)` for a one-character separator. -/
def joinSep (sep : Char) : List (List Char) → List Char
  | [] => []
  | [t] => t
  | t :: ts => t ++ sep :: joinSep sep ts

/-- Python `' '.join(lines)`. -/
def joinSpace : List (List Char) → List Char := joinSep ' '

/-- Python `'\n'.join(lines)`: the inverse of splitting on newlines, used to
relate the token content of a manuscript to that of its lines. -/
def joinNl : List (List Char) → List Char := joinSep '\n'

/-- The paragraph-text cleanup of `flush_paragraph`:
`re.sub(r'\s+', ' ', text).strip()`. -/
def collapseWs (s : List Char) : List Char := strip (squeezeWs s false)

/-- `flush_paragraph`: join the buffered lines with spaces, collapse
whitespace, and emit a PARAGRAPH block if the result is non-empty (the
block gets the dataclass default level 1). -/
def flushPar (buf : List (List Char)) : List ContentBlock :=
  if buf = [] then []
  else
    let text := collapseWs (joinSpace buf)
    if text = [] then []
    else [{ content_type := ContentType.PARAGRAPH, text := text }]

/-- The line loop of `parse_manuscript` over the split lines, carrying the
paragraph buffer and the consecutive-blank count. On a blank line the count
is incremented and the buffer flushed (with a SCENE_BREAK additionally
emitted when the count reaches 3 and the buffer is still non-empty, exactly
as in the source); on a heading or scene-break classification the buffer is
flushed and the block emitted; otherwise the stripped line is buffered. -/
def parseLines : List (List Char) → List (List Char) → ℕ → List ContentBlock
  | [], buf, _ => flushPar buf
  | line :: rest, buf, blanks =>
    let stripped := strip line
    match detect_content_type stripped with
    | (ct, lvl) =>
      if ct = ContentType.BLANK then
        (if 3 ≤ blanks + 1 ∧ buf ≠ [] then
          flushPar buf ++ [{ content_type := ContentType.SCENE_BREAK, text := [] }]
        else flushPar buf) ++ parseLines rest [] (blanks + 1)
      else if ct = ContentType.CHAPTER_HEADING ∨ ct = ContentType.FRONT_MATTER_HEADING ∨
          ct = ContentType.BACK_MATTER_HEADING ∨ ct = ContentType.SCENE_BREAK then
        (flushPar buf ++ [{ content_type := ct, text := stripped, level := lvl }]) ++
          parseLines rest [] 0
      else
        parseLines rest (buf ++ [stripped]) 0

/-- Python `content.split('\n')` (keeps empty pieces; `"".split('\n') == ['']`). -/
def splitOnNl : List Char → List (List Char)
  | [] => [[]]
  | c :: cs =>
    if c = '\n' then [] :: splitOnNl cs
    else
      match splitOnNl cs with
      | l :: ls => (c :: l) :: ls
      | [] => [[c]]

/-- `parse_manuscript(content)`: split on newlines and run the line loop with
an empty buffer and zero blank count. -/
def parse_manuscript (content : List Char) : List ContentBlock :=
  parseLines (splitOnNl content) [] 0

/-- The block kinds whose `text` carries prose (Paragraph plus every heading
kind), as in the spec's "every emitted Paragraph/Heading block". -/
def isProseKind : ContentType → Bool
  | ContentType.PARAGRAPH => true
  | ContentType.TITLE => true
  | ContentType.CHAPTER_HEADING => true
  | ContentType.SECTION_HEADING => true
  | ContentType.FRONT_MATTER_HEADING => true
  | ContentType.BACK_MATTER_HEADING => true
  | _ => false

/-- The texts of the Paragraph/heading blocks of a parse result, in order. -/
def proseTexts (bs : List ContentBlock) : List (List Char) :=
  (bs.filter (fun b => isProseKind b.content_type)).map (fun b => b.text)

/-- All tokens of a list of strings, concatenated in order. -/
def flatTokens : List (List Char) → List (List Char)
  | [] => []
  | t :: ts => tokens t ++ flatTokens ts

/-- The per-block field constraints that actually hold on the parser output
(the amended form of the spec's data-model invariant): a Paragraph block has
non-empty text and carries the dataclass default level 1; a chapter heading
has level 1; a front- or back-matter heading has level 2; a SceneBreak block
has level 0 and its text is the stripped ornament line that triggered it
(matching the scene-break pattern, hence non-empty). -/
def GoodBlock (b : ContentBlock) : Prop :=
  (b.content_type = ContentType.PARAGRAPH → b.text ≠ [] ∧ b.level = 1) ∧
  (b.content_type = ContentType.CHAPTER_HEADING → b.level = 1) ∧
  (b.content_type = ContentType.FRONT_MATTER_HEADING ∨
    b.content_type = ContentType.BACK_MATTER_HEADING → b.level = 2) ∧
  (b.content_type = ContentType.SCENE_BREAK →
    b.level = 0 ∧ isSceneBreakLine b.text = true)

/-! ## Heading normalizer `clean_chapter_title` (`src/api/docx_generator.py`) -/

/-- Consume a literal prefix case-insensitively (`re.IGNORECASE`), returning
the consumed original characters and the rest. -/
def eatCI : List Char → List Char → Option (List Char × List Char)
  | [], s => some ([], s)
  | p :: ps, c :: cs =>
    if c.toUpper = p then
      match eatCI ps cs with
      | some (d, r) => some (c :: d, r)
      | none => none
    else none
  | _ :: _, [] => none

/-- Consume `X+` for a character class `p`: at least one character, maximal
run, returning the consumed characters and the rest. -/
def eatClass1 (p : Char → Bool) : List Char → Option (List Char × List Char)
  | c :: cs => if p c then some (c :: cs.takeWhile p, cs.dropWhile p) else none
  | [] => none

/-- Consume one expected character. -/
def expectChar (c : Char) : List Char → Option (List Char)
  | d :: ds => if d = c then some ds else none
  | [] => none

/-- `[A-Z]` under `re.IGNORECASE`: any ASCII letter. -/
def isAsciiLetter (c : Char) : Bool := c.isAlpha

/-- First collapse pattern of `clean_chapter_title`:
`^(CHAPTER\s+\d+):\s*(CHAPTER\s+[A-Z]+[\w\s-]*:)` with `re.IGNORECASE`;
on success the result is `match.group(2)`, the second parenthesized
substring, which ends at the colon that terminates the `[\w\s-]` run. -/
def matchNumThenWord (s : List Char) : Option (List Char) := do
  let (_, r) ← eatCI ("CHAPTER".data) s
  let (_, r) ← eatClass1 isPyWhitespace r
  let (_, r) ← eatClass1 Char.isDigit r
  let r ← expectChar ':' r
  let r := r.dropWhile isPyWhitespace
  let (a, r2) ← eatCI ("CHAPTER".data) r
  let (b, r2) ← eatClass1 isPyWhitespace r2
  let (c, r2) ← eatClass1 isAsciiLetter r2
  let (d, r2) := (r2.takeWhile isWordish, r2.dropWhile isWordish)
  let _ ← expectChar ':' r2
  pure (a ++ b ++ c ++ d ++ [':'])

/-- Second collapse pattern of `clean_chapter_title`:
`^(CHAPTER\s+[A-Z]+[\w\s-]*):\s*(CHAPTER\s+\d+:)` with `re.IGNORECASE`;
on success the result is `match.group(1)`, which ends just before the first
colon. -/
def matchWordThenNum (s : List Char) : Option (List Char) := do
  let (a, r) ← eatCI ("CHAPTER".data) s
  let (b, r) ← eatClass1 isPyWhitespace r
  let (c, r) ← eatClass1 isAsciiLetter r
  let (d, r) := (r.takeWhile isWordish, r.dropWhile isWordish)
  let r ← expectChar ':' r
  let r := r.dropWhile isPyWhitespace
  let (_, r) ← eatCI ("CHAPTER".data) r
  let (_, r) ← eatClass1 isPyWhitespace r
  let (_, r) ← eatClass1 Char.isDigit r
  let _ ← expectChar ':' r
  pure (a ++ b ++ c ++ d)

/-- `clean_chapter_title(title)`: first pattern returns `group(2).strip()`,
second returns `group(1).strip() + ':'`, otherwise the title is returned
unchanged. -/
def clean_chapter_title (title : List Char) : List Char :=
  match matchNumThenWord title with
  | some g2 => strip g2
  | none =>
    match matchWordThenNum title with
    | some g1 => strip g1 ++ [':']
    | none => title

/-! ## Duplicated heading detector (`src/api/document_processor.py`) -/

/-- `^CHAPTER\s+[A-Z]+[\w\s-]*:?` — the trailing `[\w\s-]*:?` can match the
empty string, so as a prefix match the pattern only requires `CHAPTER`,
whitespace, and one letter. -/
def dpChapPat1 (u : List Char) : Bool :=
  match chapterHeadU u with
  | some (c :: _) => isUpperAZ c
  | _ => false

/-- `^CHAPTER\s+\d+` (prefix match, no trailing anchor). -/
def dpChapPat2 (u : List Char) : Bool :=
  match chapterHeadU u with
  | some (c :: _) => c.isDigit
  | _ => false

/-- `^CHAPTER\s+[A-Z]+[\w\s-]*:.*` — same condition as `chapPat1` (the `.*`
adds nothing to a prefix match). -/
def dpChapPat3 (u : List Char) : Bool := chapPat1 u

/-- `^CHAPTER\s+\d+:.*` — same condition as `chapPat2`. -/
def dpChapPat4 (u : List Char) : Bool := chapPat2 u

/-- `_is_chapter_heading(text)` from `document_processor.py`: empty or
longer-than-200-character text is never a heading; otherwise the patterns
are tried against `text.upper().strip()` (the pattern list ends with
`PART`/`PROLOGUE`/`EPILOGUE` patterns identical to the regexes shared with
`detect_chapter_heading`, plus a final re-check of the first pattern). -/
def is_chapter_heading (text : List Char) : Bool :=
  if text = [] || decide (200 < text.length) then false
  else
    let tu := strip (text.map Char.toUpper)
    dpChapPat1 tu || dpChapPat2 tu || dpChapPat3 tu || dpChapPat4 tu ||
    chapPat5 tu || chapPat6 tu || chapPat7 tu || chapPat8 tu ||
    dpChapPat1 tu

/-! ## Claim theorems: layout calculator -/

/-- C7: the two unknown-key cases are asymmetric: an unknown paper-stock key
substitutes the default stock's pages-per-inch and continues (spine width for
an unknown stock equals the spine width for `cream_55lb`), while an unknown
trim-size key fails `cover_dimensions` with an invalid-reference error and a
known trim key always succeeds, for any paper key. -/
theorem c7_lookup_asymmetry :
    (∀ (k : String) (pages : ℤ) (paper : String) (bleed : Bool),
      TRIM_PRESETS k = none → cover_dimensions k pages paper bleed = Except.error k) ∧
    (∀ (pages : ℤ) (paper : String),
      PAPER_STOCKS paper = none →
        calc_spine_width_in pages paper = calc_spine_width_in pages "cream_55lb") ∧
    (∀ (k : String) (t : TrimPreset) (pages : ℤ) (paper : String) (bleed : Bool),
      TRIM_PRESETS k = some t →
        ∃ d, cover_dimensions k pages paper bleed = Except.ok d) := by
  refine ⟨?_, ?_, ?_⟩
  · intro k pages paper bleed h
    simp only [cover_dimensions, h]
  · intro pages paper h
    have hc : PAPER_STOCKS "cream_55lb" = some ⟨true, true, 444⟩ := rfl
    simp only [calc_spine_width_in, h, hc, Option.getD_some, Option.getD_none]
  · intro k t pages paper bleed h
    unfold cover_dimensions
    rw [h]
    exact ⟨_, rfl⟩

/-- Witness for C7 at the spec's concrete keys: `"unknown_trim"` is rejected,
`"unknown_stock"` silently reuses the default stock, and the known `"6x9"`
trim succeeds even with an unknown stock. -/
theorem c7_witness :
    cover_dimensions "unknown_trim" 300 "cream_55lb" false = Except.error "unknown_trim" ∧
    calc_spine_width_in 300 "unknown_stock" = calc_spine_width_in 300 "cream_55lb" ∧
    ∃ d, cover_dimensions "6x9" 300 "unknown_stock" false = Except.ok d :=
  ⟨c7_lookup_asymmetry.1 "unknown_trim" 300 "cream_55lb" false rfl,
   c7_lookup_asymmetry.2.1 300 "unknown_stock" rfl,
   c7_lookup_asymmetry.2.2 "6x9" ⟨6, 9, "trade"⟩ 300 "unknown_stock" false rfl⟩

/-- Concrete evaluation of the spine formula at 300 pages of `cream_55lb`:
`300 / 444` rounded to three decimals is `0.676`. -/
lemma spine_300_cream : calc_spine_width_in 300 "cream_55lb" = 0.676 := by
  have hp : PAPER_STOCKS "cream_55lb" = some ⟨true, true, 444⟩ := rfl
  have harg : ((300 : ℤ) : ℚ) / ((444 : ℕ) : ℚ) * 1000 = 25000 / 37 := by
    push_cast
    norm_num
  have hf : ⌊(25000 / 37 : ℚ)⌋ = 675 := by
    rw [Int.floor_eq_iff]
    norm_num
  simp only [calc_spine_width_in, hp, Option.getD_some, round3, pyRound, harg, hf]
  norm_num

/-- C8: spine width is the page count divided by the stock's pages-per-inch
rounded to 3 decimals, and the wrap-cover width is
`2 * trimWidth + spineWidth + 2 * bleed` with bleed `0.125` when enabled and
`0` otherwise; concretely, trim `"6x9"`, stock `"cream_55lb"`, 300 pages and
no bleed give spine width `0.676` and full cover width `12.676`. -/
theorem c8_spine_and_cover :
    (∀ (pages : ℤ) (paper : String) (st : PaperStock),
      PAPER_STOCKS paper = some st →
        calc_spine_width_in pages paper = round3 ((pages : ℚ) / (st.pages_per_inch : ℚ))) ∧
    (∀ (k : String) (t : TrimPreset) (pages : ℤ) (paper : String) (bleed : Bool),
      TRIM_PRESETS k = some t →
        cover_dimensions k pages paper bleed =
          Except.ok ⟨2 * t.width_in + calc_spine_width_in pages paper +
                       2 * (if bleed then (0.125 : ℚ) else 0),
                     t.height_in + 2 * (if bleed then (0.125 : ℚ) else 0),
                     calc_spine_width_in pages paper⟩) ∧
    cover_dimensions "6x9" 300 "cream_55lb" false =
      Except.ok ⟨12.676, 9, 0.676⟩ := by
  have hcover : ∀ (k : String) (t : TrimPreset) (pages : ℤ) (paper : String) (bleed : Bool),
      TRIM_PRESETS k = some t →
        cover_dimensions k pages paper bleed =
          Except.ok ⟨2 * t.width_in + calc_spine_width_in pages paper +
                       2 * (if bleed then (0.125 : ℚ) else 0),
                     t.height_in + 2 * (if bleed then (0.125 : ℚ) else 0),
                     calc_spine_width_in pages paper⟩ := by
    intro k t pages paper bleed h
    simp only [cover_dimensions, h]
    have hw : t.width_in * 2 + calc_spine_width_in pages paper +
          2 * (if bleed then (0.125 : ℚ) else 0) =
        2 * t.width_in + calc_spine_width_in pages paper +
          2 * (if bleed then (0.125 : ℚ) else 0) := by ring
    rw [hw]
  refine ⟨?_, hcover, ?_⟩
  · intro pages paper st h
    simp only [calc_spine_width_in, h, Option.getD_some]
  · rw [hcover "6x9" ⟨6, 9, "trade"⟩ 300 "cream_55lb" false rfl, spine_300_cream]
    norm_num

/-- Witness for C8: the general spine and cover formulas applied at the spec's
concrete input (`"6x9"`, `"cream_55lb"`, 300 pages, no bleed). -/
theorem c8_witness :
    calc_spine_width_in 300 "cream_55lb" = round3 ((300 : ℚ) / (444 : ℚ)) ∧
    cover_dimensions "6x9" 300 "cream_55lb" false =
      Except.ok ⟨2 * 6 + calc_spine_width_in 300 "cream_55lb" + 2 * 0,
                 9 + 2 * 0, calc_spine_width_in 300 "cream_55lb"⟩ :=
  ⟨c8_spine_and_cover.1 300 "cream_55lb" ⟨true, true, 444⟩ rfl,
   by
    have h := c8_spine_and_cover.2.1 "6x9" ⟨6, 9, "trade"⟩ 300 "cream_55lb" false rfl
    simpa using h⟩

/-- C9: the gutter suggestion is a step function with strictly-less-than
boundaries: `< 150 ↦ 0.6`, `< 300 ↦ 0.7`, `< 500 ↦ 0.8`, else `0.9`; in
particular exactly 150 pages give `0.7`, not `0.6`. -/
theorem c9_gutter_brackets :
    (∀ n : ℤ, n < 150 → suggested_gutter n = 0.6) ∧
    (∀ n : ℤ, 150 ≤ n → n < 300 → suggested_gutter n = 0.7) ∧
    (∀ n : ℤ, 300 ≤ n → n < 500 → suggested_gutter n = 0.8) ∧
    (∀ n : ℤ, 500 ≤ n → suggested_gutter n = 0.9) ∧
    suggested_gutter 150 = 0.7 ∧ suggested_gutter 150 ≠ 0.6 := by
  refine ⟨?_, ?_, ?_, ?_, rfl, by norm_num [suggested_gutter]⟩
  · intro n h; simp [suggested_gutter, h]
  · intro n h1 h2; simp [suggested_gutter, h2, not_lt.mpr h1]
  · intro n h1 h2
    simp [suggested_gutter, h2, not_lt.mpr h1, not_lt.mpr (by linarith : (150 : ℤ) ≤ n)]
  · intro n h
    simp [suggested_gutter, not_lt.mpr h, not_lt.mpr (by linarith : (150 : ℤ) ≤ n),
      not_lt.mpr (by linarith : (300 : ℤ) ≤ n)]

/-- Witness for C9: the brackets evaluated at 100, 150, 300 and 500 pages. -/
theorem c9_witness :
    suggested_gutter 100 = 0.6 ∧ suggested_gutter 150 = 0.7 ∧
    suggested_gutter 300 = 0.8 ∧ suggested_gutter 500 = 0.9 :=
  ⟨c9_gutter_brackets.1 100 (by decide),
   c9_gutter_brackets.2.1 150 (by decide) (by decide),
   c9_gutter_brackets.2.2.1 300 (by decide) (by decide),
   c9_gutter_brackets.2.2.2.1 500 (by decide)⟩

/-- Counterexample for C6: on empty manuscript text the estimator returns
`None` (an absent result), not the page count 1 the claim requires. -/
theorem c6_counterexample :
    guess_pages_from_wordcount [] 11 = none ∧
    (guess_pages_from_wordcount [] 11).isSome = false :=
  ⟨rfl, rfl⟩

/-- C6 (amended): for text containing at least one word token, the estimator
returns `max(1, round(wordCount / wordsPerPage))`, which is at least 1; for
text with no word tokens (in particular the empty manuscript) it returns no
result (`None`), and the caller substitutes a default instead. -/
theorem c6_page_estimate_amended (txt : List Char) (fs : ℚ)
    (h : estimate_wordcount txt ≠ 0) :
    guess_pages_from_wordcount txt fs =
      some (max 1 (pyRound ((estimate_wordcount txt : ℚ) / words_per_page fs))) ∧
    ∀ n, guess_pages_from_wordcount txt fs = some n → 1 ≤ n := by
  have h1 : guess_pages_from_wordcount txt fs =
      some (max 1 (pyRound ((estimate_wordcount txt : ℚ) / words_per_page fs))) := by
    simp only [guess_pages_from_wordcount]
    rw [if_neg h]
  refine ⟨h1, ?_⟩
  intro n hn
  rw [h1] at hn
  injection hn with hn
  rw [← hn]
  exact le_max_left 1 _

/-- Witness for C6 (amended) at the two-word text `"hello world"`: the
estimator succeeds and reports exactly 1 page. -/
theorem c6_witness :
    estimate_wordcount ("hello world".data) ≠ 0 ∧
    guess_pages_from_wordcount ("hello world".data) 11 = some 1 := by
  have h0 : estimate_wordcount ("hello world".data) ≠ 0 := by decide
  refine ⟨h0, ?_⟩
  rw [(c6_page_estimate_amended ("hello world".data) 11 h0).1]
  have he : estimate_wordcount ("hello world".data) = 2 := by decide
  have hwpp : words_per_page 11 = 350 := by norm_num [words_per_page]
  rw [he, hwpp]
  have hf : ⌊((2 : ℕ) : ℚ) / 350⌋ = 0 := by
    rw [Int.floor_eq_iff]
    norm_num
  have hr : pyRound (((2 : ℕ) : ℚ) / 350) = 0 := by
    simp only [pyRound, hf]
    norm_num
  rw [hr]
  norm_num

/-! ## Stripping lemmas -/

/-- The head of `dropWhile p` does not satisfy `p`. -/
lemma dropWhile_head_false {p : Char → Bool} :
    ∀ (s : List Char) {c t}, List.dropWhile p s = c :: t → p c = false := by
  intro s
  induction s with
  | nil => intro c t h; simp at h
  | cons a as ih =>
    intro c t h
    cases hp : p a with
    | true =>
      rw [List.dropWhile_cons, if_pos hp] at h
      exact ih h
    | false =>
      rw [List.dropWhile_cons, if_neg (by simp [hp])] at h
      injection h with h1 _
      rw [← h1]
      exact hp

/-- Unfolding equation for `stripRight` on a cons cell. -/
lemma stripRight_cons (c : Char) (cs : List Char) :
    stripRight (c :: cs) =
      match stripRight cs with
      | [] => if isPyWhitespace c then [] else [c]
      | d :: ds => c :: d :: ds := rfl

/-- `stripRight` either deletes a cons cell entirely or keeps its head. -/
lemma stripRight_head (c : Char) (cs : List Char) :
    stripRight (c :: cs) = [] ∨ ∃ t, stripRight (c :: cs) = c :: t := by
  rw [stripRight_cons]
  cases h : stripRight cs with
  | nil =>
    by_cases hw : isPyWhitespace c = true
    · left; simp [hw]
    · right; exact ⟨[], by simp [hw]⟩
  | cons d ds => right; exact ⟨d :: ds, rfl⟩

/-- `stripRight` is idempotent. -/
lemma stripRight_idem : ∀ s : List Char, stripRight (stripRight s) = stripRight s := by
  intro s
  induction s with
  | nil => rfl
  | cons c cs ih =>
    rw [stripRight_cons]
    cases h : stripRight cs with
    | nil =>
      by_cases hw : isPyWhitespace c = true
      · simp [hw, stripRight]
      · simp [hw, stripRight_cons, stripRight]
    | cons d ds =>
      rw [h] at ih
      rw [stripRight_cons, ih]

/-- A stripped string has no leading whitespace left. -/
lemma stripLeft_strip (s : List Char) : stripLeft (strip s) = strip s := by
  unfold strip
  cases h : stripLeft s with
  | nil => rfl
  | cons c t =>
    have hc : isPyWhitespace c = false := dropWhile_head_false s h
    rcases stripRight_head c t with h2 | ⟨t', h2⟩
    · rw [h2]; rfl
    · rw [h2]
      unfold stripLeft
      rw [List.dropWhile_cons, if_neg (by simp [hc])]

/-- Python `strip` is idempotent. -/
lemma strip_idem (s : List Char) : strip (strip s) = strip s :=
  calc strip (strip s) = stripRight (stripLeft (strip s)) := rfl
    _ = stripRight (strip s) := by rw [stripLeft_strip]
    _ = strip s := stripRight_idem (stripLeft s)

/-! ## Token-run lemmas -/

/-- Whitespace characters are not alphanumeric. -/
lemma ws_not_alnum : ∀ c : Char, isPyWhitespace c = true → isAlnum c = false := by
  intro c h
  simp only [isPyWhitespace, Bool.or_eq_true, beq_iff_eq] at h
  rcases h with ((((h | h) | h) | h) | h) | h <;> subst h <;> decide

/-- Ornament characters are not alphanumeric. -/
lemma ornament_not_alnum : ∀ c : Char, isOrnamentChar c = true → isAlnum c = false := by
  intro c h
  simp only [isOrnamentChar, Bool.or_eq_true, beq_iff_eq] at h
  rcases h with ((h | h) | h) | h <;> subst h <;> decide

/-- Unfolding equation for `runsAux` on the empty string. -/
lemma runsAux_nil (p : Char → Bool) (cur : List Char) :
    runsAux p [] cur = if cur.isEmpty then [] else [cur.reverse] := rfl

/-- Unfolding equation for `runsAux` on a cons cell. -/
lemma runsAux_cons (p : Char → Bool) (c : Char) (cs cur : List Char) :
    runsAux p (c :: cs) cur =
      if p c then runsAux p cs (c :: cur)
      else if cur.isEmpty then runsAux p cs []
      else cur.reverse :: runsAux p cs [] := rfl

/-- On a string with no `p`-characters, `runsAux` just closes the pending
run. -/
lemma runsAux_all_not {p : Char → Bool} :
    ∀ s : List Char, (∀ c ∈ s, p c = false) →
      ∀ cur, runsAux p s cur = if cur.isEmpty then [] else [cur.reverse] := by
  intro s
  induction s with
  | nil => intro _ cur; rfl
  | cons c cs ih =>
    intro h cur
    have hc : p c = false := h c (List.mem_cons_self c cs)
    have hcs : ∀ x ∈ cs, p x = false := fun x hx => h x (List.mem_cons_of_mem c hx)
    rw [runsAux_cons, if_neg (by simp [hc]), ih hcs]
    simp

/-- Splitting the runs at a separator character that does not satisfy `p`. -/
lemma runsAux_append_sep {p : Char → Bool} {sep : Char} (hsep : p sep = false) :
    ∀ (a : List Char) (cur b : List Char),
      runsAux p (a ++ sep :: b) cur = runsAux p a cur ++ runs p b := by
  intro a
  induction a with
  | nil =>
    intro cur b
    by_cases he : cur.isEmpty = true <;>
      simp [runsAux_cons, runsAux_nil, hsep, he, runs]
  | cons x a ih =>
    intro cur b
    simp only [List.cons_append, runsAux_cons]
    by_cases hx : p x = true
    · simp [hx, ih]
    · by_cases he : cur.isEmpty = true <;> simp [hx, he, ih]

/-- Appending characters that never satisfy `p` does not change the runs. -/
lemma runsAux_append_all_not {p : Char → Bool} {t : List Char}
    (h : ∀ c ∈ t, p c = false) :
    ∀ (a cur : List Char), runsAux p (a ++ t) cur = runsAux p a cur := by
  cases t with
  | nil => intro a cur; simp
  | cons c t2 =>
    intro a cur
    rw [runsAux_append_sep (h c (List.mem_cons_self c t2)) a cur t2]
    rw [runs, runsAux_all_not t2 (fun x hx => h x (List.mem_cons_of_mem c hx)) []]
    simp

/-- A leading character that does not satisfy `p` does not change the runs. -/
lemma runs_cons_not {p : Char → Bool} {c : Char} (hc : p c = false) (s : List Char) :
    runs p (c :: s) = runs p s := by
  simp [runs, runsAux_cons, hc]

/-- Dropping a leading run of characters of a class disjoint from `p` does
not change the runs. -/
lemma runs_dropWhile {p q : Char → Bool} (h : ∀ c, q c = true → p c = false) :
    ∀ s : List Char, runs p (List.dropWhile q s) = runs p s := by
  intro s
  induction s with
  | nil => rfl
  | cons c cs ih =>
    rw [List.dropWhile_cons]
    by_cases hq : q c = true
    · rw [if_pos hq, ih, runs_cons_not (h c hq)]
    · rw [if_neg hq]

/-- If `stripRight` deletes everything, the string was all whitespace. -/
lemma stripRight_nil_all_ws :
    ∀ s : List Char, stripRight s = [] → ∀ c ∈ s, isPyWhitespace c = true := by
  intro s
  induction s with
  | nil => intro _ c hc; simp at hc
  | cons a as ih =>
    intro h c hc
    rw [stripRight_cons] at h
    cases h2 : stripRight as with
    | nil =>
      rw [h2] at h
      by_cases hw : isPyWhitespace a = true
      · rcases List.mem_cons.mp hc with rfl | hmem
        · exact hw
        · exact ih h2 c hmem
      · rw [if_neg hw] at h
        simp at h
    | cons d ds =>
      rw [h2] at h
      simp at h

/-- `stripRight` does not change the runs when `p` rejects whitespace. -/
lemma runsAux_stripRight {p : Char → Bool}
    (hws : ∀ c, isPyWhitespace c = true → p c = false) :
    ∀ (s cur : List Char), runsAux p (stripRight s) cur = runsAux p s cur := by
  intro s
  induction s with
  | nil => intro cur; rfl
  | cons c cs ih =>
    intro cur
    rw [stripRight_cons]
    cases h2 : stripRight cs with
    | nil =>
      have hall : ∀ x ∈ cs, isPyWhitespace x = true := stripRight_nil_all_ws cs h2
      have hnp : ∀ x ∈ cs, p x = false := fun x hx => hws x (hall x hx)
      have hcs : ∀ cur2 : List Char,
          runsAux p cs cur2 = if cur2.isEmpty then [] else [cur2.reverse] :=
        fun cur2 => runsAux_all_not cs hnp cur2
      by_cases hw : isPyWhitespace c = true
      · have hpc : p c = false := hws c hw
        by_cases he : cur.isEmpty = true <;>
          simp [hw, hpc, he, runsAux_nil, runsAux_cons, hcs]
      · by_cases hcp : p c = true
        · by_cases he : cur.isEmpty = true <;>
            simp [hw, hcp, he, runsAux_nil, runsAux_cons, hcs]
        · by_cases he : cur.isEmpty = true <;>
            simp [hw, hcp, he, runsAux_nil, runsAux_cons, hcs]
    | cons d ds =>
      have ih2 := ih
      rw [h2] at ih2
      rw [runsAux_cons p c (d :: ds) cur, runsAux_cons p c cs cur]
      by_cases hcp : p c = true
      · simp [hcp, ih2]
      · by_cases he : cur.isEmpty = true <;> simp [hcp, he, ih2]

/-- `strip` does not change the runs when `p` rejects whitespace. -/
lemma runs_strip {p : Char → Bool}
    (hws : ∀ c, isPyWhitespace c = true → p c = false) (s : List Char) :
    runs p (strip s) = runs p s := by
  have h1 : runs p (stripRight (stripLeft s)) = runs p (stripLeft s) :=
    runsAux_stripRight hws (stripLeft s) []
  have h2 : runs p (stripLeft s) = runs p s := runs_dropWhile hws s
  rw [strip, h1, h2]

/-- Unfolding equation for `squeezeWs` on a cons cell. -/
lemma squeezeWs_cons (c : Char) (cs : List Char) (b : Bool) :
    squeezeWs (c :: cs) b =
      if isPyWhitespace c then
        if b then squeezeWs cs true else ' ' :: squeezeWs cs true
      else c :: squeezeWs cs false := rfl

/-- Whitespace collapsing does not change the runs when `p` rejects
whitespace (and hence rejects the substituted space character). -/
lemma runsAux_squeeze {p : Char → Bool}
    (hws : ∀ c, isPyWhitespace c = true → p c = false) :
    ∀ s : List Char,
      (∀ cur, runsAux p (squeezeWs s false) cur = runsAux p s cur) ∧
      runsAux p (squeezeWs s true) [] = runsAux p s [] := by
  intro s
  induction s with
  | nil => exact ⟨fun _ => rfl, rfl⟩
  | cons c cs ih =>
    obtain ⟨ih1, ih2⟩ := ih
    have hspace : p ' ' = false := hws ' ' (by decide)
    constructor
    · intro cur
      rw [squeezeWs_cons]
      by_cases hw : isPyWhitespace c = true
      · have hpc : p c = false := hws c hw
        rw [if_pos hw, if_neg (by simp : ¬(false = true)),
          runsAux_cons p ' ' (squeezeWs cs true) cur, runsAux_cons p c cs cur]
        by_cases he : cur.isEmpty = true <;> simp [hspace, hpc, he, ih2]
      · rw [if_neg hw, runsAux_cons p c (squeezeWs cs false) cur, runsAux_cons p c cs cur]
        by_cases hcp : p c = true
        · simp [hcp, ih1]
        · by_cases he : cur.isEmpty = true <;> simp [hcp, he, ih1]
    · rw [squeezeWs_cons]
      by_cases hw : isPyWhitespace c = true
      · have hpc : p c = false := hws c hw
        rw [if_pos hw, if_pos rfl, runsAux_cons p c cs ([] : List Char)]
        simp [hpc, ih2]
      · rw [if_neg hw, runsAux_cons p c (squeezeWs cs false) ([] : List Char),
          runsAux_cons p c cs ([] : List Char)]
        by_cases hcp : p c = true
        · simp [hcp, ih1]
        · simp [hcp, ih1]

/-- Stripping does not change the tokens. -/
lemma tokens_strip (s : List Char) : tokens (strip s) = tokens s :=
  runs_strip ws_not_alnum s

/-- The paragraph cleanup (`re.sub(r'\s+', ' ', ·).strip()`) does not change
the tokens. -/
lemma tokens_collapseWs (s : List Char) : tokens (collapseWs s) = tokens s := by
  rw [collapseWs, tokens, runs_strip ws_not_alnum]
  exact (runsAux_squeeze ws_not_alnum s).1 []

/-- Joining with a non-alphanumeric separator concatenates the tokens. -/
lemma tokens_joinSep {sep : Char} (hsep : isAlnum sep = false) :
    ∀ ts : List (List Char), tokens (joinSep sep ts) = flatTokens ts := by
  intro ts
  induction ts with
  | nil => rfl
  | cons t ts2 ih =>
    cases ts2 with
    | nil => simp [joinSep, flatTokens, tokens, runs]
    | cons t2 ts3 =>
      rw [show joinSep sep (t :: t2 :: ts3) = t ++ sep :: joinSep sep (t2 :: ts3) from rfl,
        flatTokens, ← ih]
      simpa [tokens, runs] using
        runsAux_append_sep hsep t [] (joinSep sep (t2 :: ts3))

/-- Unfolding equation for `splitOnNl` on a cons cell. -/
lemma splitOnNl_cons (c : Char) (cs : List Char) :
    splitOnNl (c :: cs) =
      if c = '\n' then [] :: splitOnNl cs
      else
        match splitOnNl cs with
        | l :: ls => (c :: l) :: ls
        | [] => [[c]] := rfl

/-- `split` never returns an empty list of pieces. -/
lemma splitOnNl_ne_nil : ∀ s : List Char, splitOnNl s ≠ [] := by
  intro s
  cases s with
  | nil => simp [splitOnNl]
  | cons c cs =>
    rw [splitOnNl_cons]
    by_cases h : c = '\n'
    · simp [h]
    · rw [if_neg h]
      cases h2 : splitOnNl cs <;> simp

/-- Joining with newlines is a left inverse of splitting on newlines. -/
lemma joinNl_splitOnNl : ∀ s : List Char, joinNl (splitOnNl s) = s := by
  intro s
  induction s with
  | nil => rfl
  | cons c cs ih =>
    rw [splitOnNl_cons]
    by_cases h : c = '\n'
    · rw [if_pos h]
      cases h2 : splitOnNl cs with
      | nil => exact absurd h2 (splitOnNl_ne_nil cs)
      | cons l ls =>
        rw [h2] at ih
        rw [show joinNl ([] :: l :: ls) = [] ++ '\n' :: joinNl (l :: ls) from rfl,
          List.nil_append, ih, h]
    · rw [if_neg h]
      cases h2 : splitOnNl cs with
      | nil => exact absurd h2 (splitOnNl_ne_nil cs)
      | cons l ls =>
        rw [h2] at ih
        cases ls with
        | nil =>
          rw [show joinNl [c :: l] = c :: l from rfl]
          rw [show joinNl [l] = l from rfl] at ih
          rw [ih]
        | cons l2 ls2 =>
          rw [show joinNl ((c :: l) :: l2 :: ls2) =
            (c :: l) ++ '\n' :: joinNl (l2 :: ls2) from rfl]
          rw [show joinNl (l :: l2 :: ls2) = l ++ '\n' :: joinNl (l2 :: ls2) from rfl] at ih
          rw [List.cons_append, ih]

/-- The tokens of a manuscript are the tokens of its lines, in order. -/
lemma flatTokens_splitOnNl (s : List Char) : flatTokens (splitOnNl s) = tokens s := by
  have h := tokens_joinSep (show isAlnum '\n' = false by decide) (splitOnNl s)
  rw [show joinSep '\n' (splitOnNl s) = joinNl (splitOnNl s) from rfl,
    joinNl_splitOnNl] at h
  exact h.symm

/-- `flatTokens` distributes over append. -/
lemma flatTokens_append : ∀ a b : List (List Char),
    flatTokens (a ++ b) = flatTokens a ++ flatTokens b := by
  intro a b
  induction a with
  | nil => rfl
  | cons t a2 ih => simp [flatTokens, ih]

/-- `proseTexts` distributes over append. -/
lemma proseTexts_append (a b : List ContentBlock) :
    proseTexts (a ++ b) = proseTexts a ++ proseTexts b := by
  simp [proseTexts]

/-- `proseTexts` on the empty block list. -/
lemma proseTexts_nil : proseTexts [] = [] := rfl

/-- `proseTexts` keeps exactly the texts of prose-kind blocks. -/
lemma proseTexts_cons (b : ContentBlock) (bs : List ContentBlock) :
    proseTexts (b :: bs) =
      if isProseKind b.content_type = true then b.text :: proseTexts bs
      else proseTexts bs := by
  by_cases h : isProseKind b.content_type = true <;>
    simp [proseTexts, List.filter_cons, h]

/-- A line classified as a scene break carries no tokens: it is a run of
ornament characters or one of the ornament literals. -/
lemma tokens_scene {s : List Char} (h : isSceneBreakLine s = true) : tokens s = [] := by
  simp only [isSceneBreakLine, Bool.or_eq_true, Bool.and_eq_true, decide_eq_true_eq,
    List.all_eq_true, beq_iff_eq] at h
  rcases h with (((⟨_, hall⟩ | rfl) | rfl) | rfl) | rfl
  · have hna : ∀ c ∈ s, isAlnum c = false := fun c hc => ornament_not_alnum c (hall c hc)
    rw [tokens, runs, runsAux_all_not s hna []]
    rfl
  · decide
  · decide
  · decide
  · decide

/-! ## Claim theorems: line classifier and structural parser -/

/-- C1: contrary to the claim, the blank-line scene-break rule never fires:
on the spec's own example the parser emits only a chapter heading and two
paragraphs — no SceneBreak block. The first blank line of a 3-blank run
already flushes (and thereby empties) the paragraph buffer, so the guard
`blank_count >= 3 and current_paragraph_lines` in the source can never be
true at the third blank. -/
theorem c1_scene_break_example :
    parse_manuscript (("CHAPTER ONE\n\nIt was a dark night.\n\n\n\nShe never returned.").data) =
      [{ content_type := ContentType.CHAPTER_HEADING, text := ("CHAPTER ONE").data, level := 1 },
       { content_type := ContentType.PARAGRAPH, text := ("It was a dark night.").data, level := 1 },
       { content_type := ContentType.PARAGRAPH, text := ("She never returned.").data, level := 1 }] ∧
    ((parse_manuscript
        (("CHAPTER ONE\n\nIt was a dark night.\n\n\n\nShe never returned.").data)).all
      (fun b => !(b.content_type == ContentType.SCENE_BREAK))) = true := by
  constructor
  · decide
  · decide

/-- Counterexample for C3: `detect_content_type` applies no length threshold,
so a 213-character line starting with a chapter pattern is still classified
as a chapter heading (level 1), not as a paragraph. -/
theorem c3_counterexample :
    200 < (("CHAPTER ONE: ").data ++ List.replicate 200 'A').length ∧
    detect_content_type (("CHAPTER ONE: ").data ++ List.replicate 200 'A') =
      (ContentType.CHAPTER_HEADING, 1) := by
  constructor
  · decide
  · decide

/-- C3 (amended): the 200-character disqualification lives in
`_is_chapter_heading` (`document_processor.py`), which returns false for any
text longer than 200 characters; `detect_content_type`
(`docx_generator.py`) applies no length threshold and still classifies a
long heading-like line as a chapter heading. -/
theorem c3_length_threshold_amended :
    (∀ t : List Char, 200 < t.length → is_chapter_heading t = false) ∧
    detect_content_type (("CHAPTER ONE: ").data ++ List.replicate 200 'A') =
      (ContentType.CHAPTER_HEADING, 1) := by
  constructor
  · intro t ht
    unfold is_chapter_heading
    rw [if_pos]
    simp [ht]
  · decide

/-- Witness for C3 (amended): a 201-character all-letter text is rejected by
`_is_chapter_heading`. -/
theorem c3_witness :
    200 < (List.replicate 201 'A').length ∧
    is_chapter_heading (List.replicate 201 'A') = false :=
  ⟨by decide, c3_length_threshold_amended.1 (List.replicate 201 'A') (by decide)⟩

/-- C5: contrary to the claim (and to the function's own docstring), the
collapse patterns drop the trailing title: both orderings of
`"CHAPTER 1"`/`"CHAPTER ONE"` with the title `"The Beginning"` normalize to
`"CHAPTER ONE:"`, losing the title text, because the captured group ends at
the colon. Text matching neither pattern does pass through unchanged. -/
theorem c5_clean_title_drops_tail :
    clean_chapter_title (("CHAPTER 1: CHAPTER ONE: The Beginning").data) =
      ("CHAPTER ONE:").data ∧
    (clean_chapter_title (("CHAPTER 1: CHAPTER ONE: The Beginning").data) ==
      ("CHAPTER ONE: The Beginning").data) = false ∧
    clean_chapter_title (("CHAPTER ONE: CHAPTER 1: The Beginning").data) =
      ("CHAPTER ONE:").data ∧
    clean_chapter_title (("CHAPTER ONE: The Beginning").data) =
      ("CHAPTER ONE: The Beginning").data := by
  refine ⟨by decide, by decide, by decide, by decide⟩

/-- C10: `detect_content_type` first strips its argument, and `strip` is
idempotent, so classifying a line and classifying its stripped form agree
(stated, as in the claim, for lines whose stripped form is non-empty). -/
theorem c10_strip_invariance (line : List Char) (_h : strip line ≠ []) :
    detect_content_type line = detect_content_type (strip line) := by
  unfold detect_content_type
  rw [strip_idem]

/-- Case analysis on the result of the line classifier: it returns one of
six fixed (kind, level) pairs, with the blank and scene-break cases
characterized by their conditions. -/
lemma detect_cases (s : List Char) :
    (strip s = [] ∧ detect_content_type s = (ContentType.BLANK, 0)) ∨
    (isSceneBreakLine (strip s) = true ∧
      detect_content_type s = (ContentType.SCENE_BREAK, 0)) ∨
    detect_content_type s = (ContentType.CHAPTER_HEADING, 1) ∨
    detect_content_type s = (ContentType.FRONT_MATTER_HEADING, 2) ∨
    detect_content_type s = (ContentType.BACK_MATTER_HEADING, 2) ∨
    detect_content_type s = (ContentType.PARAGRAPH, 0) := by
  simp only [detect_content_type]
  split_ifs with h1 h2 h3 h4 h5
  · exact Or.inl ⟨h1, rfl⟩
  · exact Or.inr (Or.inl ⟨h2, rfl⟩)
  · exact Or.inr (Or.inr (Or.inl rfl))
  · exact Or.inr (Or.inr (Or.inr (Or.inl rfl)))
  · exact Or.inr (Or.inr (Or.inr (Or.inr (Or.inl rfl))))
  · exact Or.inr (Or.inr (Or.inr (Or.inr (Or.inr rfl))))

/-- `detect_cases` specialized to the already-stripped line passed by the
parser loop (using idempotence of `strip`). -/
lemma detect_strip_cases (line : List Char) :
    (strip line = [] ∧ detect_content_type (strip line) = (ContentType.BLANK, 0)) ∨
    (isSceneBreakLine (strip line) = true ∧
      detect_content_type (strip line) = (ContentType.SCENE_BREAK, 0)) ∨
    detect_content_type (strip line) = (ContentType.CHAPTER_HEADING, 1) ∨
    detect_content_type (strip line) = (ContentType.FRONT_MATTER_HEADING, 2) ∨
    detect_content_type (strip line) = (ContentType.BACK_MATTER_HEADING, 2) ∨
    detect_content_type (strip line) = (ContentType.PARAGRAPH, 0) := by
  have h := detect_cases (strip line)
  rwa [strip_idem] at h

/-- Unfolding equation for the parser loop on a blank-classified line. -/
lemma parseLines_cons_blank {line : List Char} {rest buf : List (List Char)} {blanks : ℕ}
    (hr : detect_content_type (strip line) = (ContentType.BLANK, 0)) :
    parseLines (line :: rest) buf blanks =
      (if 3 ≤ blanks + 1 ∧ buf ≠ [] then
        flushPar buf ++ [{ content_type := ContentType.SCENE_BREAK, text := [] }]
      else flushPar buf) ++ parseLines rest [] (blanks + 1) := by
  simp only [parseLines, hr]
  simp

/-- Unfolding equation for the parser loop on a heading- or scene-break-
classified line. -/
lemma parseLines_cons_emit {line : List Char} {rest buf : List (List Char)} {blanks : ℕ}
    {ct : ContentType} {lvl : ℕ}
    (hr : detect_content_type (strip line) = (ct, lvl))
    (hne : ct ≠ ContentType.BLANK)
    (hh : ct = ContentType.CHAPTER_HEADING ∨ ct = ContentType.FRONT_MATTER_HEADING ∨
      ct = ContentType.BACK_MATTER_HEADING ∨ ct = ContentType.SCENE_BREAK) :
    parseLines (line :: rest) buf blanks =
      (flushPar buf ++ [{ content_type := ct, text := strip line, level := lvl }]) ++
        parseLines rest [] 0 := by
  simp only [parseLines, hr]
  rw [if_neg hne, if_pos hh]

/-- Unfolding equation for the parser loop on a paragraph-classified line. -/
lemma parseLines_cons_par {line : List Char} {rest buf : List (List Char)} {blanks : ℕ}
    (hr : detect_content_type (strip line) = (ContentType.PARAGRAPH, 0)) :
    parseLines (line :: rest) buf blanks =
      parseLines rest (buf ++ [strip line]) 0 := by
  simp only [parseLines, hr]
  rw [if_neg (by decide), if_neg (by decide)]

/-- Flushing the paragraph buffer emits exactly the tokens of the buffered
lines (or nothing, when the buffer holds no tokens). -/
lemma flushPar_tokens (buf : List (List Char)) :
    flatTokens (proseTexts (flushPar buf)) = flatTokens buf := by
  simp only [flushPar]
  by_cases h1 : buf = []
  · subst h1
    simp [proseTexts, flatTokens]
  · rw [if_neg h1]
    have h3 : flatTokens buf = tokens (collapseWs (joinSpace buf)) := by
      rw [tokens_collapseWs,
        show joinSpace buf = joinSep ' ' buf from rfl,
        tokens_joinSep (show isAlnum ' ' = false by decide)]
    by_cases h2 : collapseWs (joinSpace buf) = []
    · rw [if_pos h2]
      rw [h2] at h3
      simp [proseTexts, flatTokens, h3]
      rfl
    · rw [if_neg h2]
      simp [proseTexts, flatTokens, isProseKind, h3]

/-- Every block emitted by a buffer flush is a good block. -/
lemma flushPar_good (buf : List (List Char)) : ∀ b ∈ flushPar buf, GoodBlock b := by
  intro b hb
  simp only [flushPar] at hb
  by_cases h1 : buf = []
  · rw [if_pos h1] at hb
    simp at hb
  · rw [if_neg h1] at hb
    by_cases h2 : collapseWs (joinSpace buf) = []
    · rw [if_pos h2] at hb
      simp at hb
    · rw [if_neg h2] at hb
      rw [List.mem_singleton] at hb
      subst hb
      exact ⟨fun _ => ⟨h2, rfl⟩, fun _ => rfl,
        fun h => by rcases h with h | h <;> simp at h,
        fun h => by simp at h⟩

/-- Core induction for C2: the tokens of the Paragraph/heading blocks of the
parser output are exactly the tokens of the pending buffer followed by the
tokens of the remaining lines. -/
lemma parseLines_tokens : ∀ (lines buf : List (List Char)) (blanks : ℕ),
    flatTokens (proseTexts (parseLines lines buf blanks)) =
      flatTokens buf ++ flatTokens lines := by
  intro lines
  induction lines with
  | nil =>
    intro buf blanks
    rw [show parseLines [] buf blanks = flushPar buf from rfl, flushPar_tokens]
    simp [flatTokens]
  | cons line rest ih =>
    intro buf blanks
    rcases detect_strip_cases line with ⟨hb, hr⟩ | ⟨hs, hr⟩ | hr | hr | hr | hr
    · -- blank line: no tokens, buffer flushed
      rw [parseLines_cons_blank hr]
      have htl : tokens line = [] := by rw [← tokens_strip line, hb]; rfl
      by_cases hc : 3 ≤ blanks + 1 ∧ buf ≠ []
      · rw [if_pos hc, proseTexts_append, proseTexts_append, flatTokens_append,
          flatTokens_append, flushPar_tokens, ih]
        simp [proseTexts_cons, proseTexts_nil, isProseKind, flatTokens, htl]
      · rw [if_neg hc, proseTexts_append, flatTokens_append, flushPar_tokens, ih]
        simp [flatTokens, htl]
    · -- ornament scene-break line: no tokens, block not prose
      rw [parseLines_cons_emit hr (by decide) (by decide)]
      rw [proseTexts_append, proseTexts_append, flatTokens_append, flatTokens_append,
        flushPar_tokens, ih]
      have htl : tokens line = [] := by
        rw [← tokens_strip line]
        exact tokens_scene hs
      simp [proseTexts_cons, proseTexts_nil, isProseKind, flatTokens, htl]
    · -- chapter heading: emitted with the stripped line as text
      rw [parseLines_cons_emit hr (by decide) (by decide)]
      rw [proseTexts_append, proseTexts_append, flatTokens_append, flatTokens_append,
        flushPar_tokens, ih]
      simp [proseTexts_cons, proseTexts_nil, isProseKind, flatTokens, tokens_strip]
    · -- front-matter heading
      rw [parseLines_cons_emit hr (by decide) (by decide)]
      rw [proseTexts_append, proseTexts_append, flatTokens_append, flatTokens_append,
        flushPar_tokens, ih]
      simp [proseTexts_cons, proseTexts_nil, isProseKind, flatTokens, tokens_strip]
    · -- back-matter heading
      rw [parseLines_cons_emit hr (by decide) (by decide)]
      rw [proseTexts_append, proseTexts_append, flatTokens_append, flatTokens_append,
        flushPar_tokens, ih]
      simp [proseTexts_cons, proseTexts_nil, isProseKind, flatTokens, tokens_strip]
    · -- paragraph line: buffered
      rw [parseLines_cons_par hr, ih, flatTokens_append]
      simp [flatTokens, tokens_strip]

/-- Core induction for C4: under the invariant that a positive blank count
implies an empty buffer (which rules out the dead blank-run scene-break
branch), every emitted block is a good block. -/
lemma parseLines_good : ∀ (lines buf : List (List Char)) (blanks : ℕ),
    (1 ≤ blanks → buf = []) → ∀ b ∈ parseLines lines buf blanks, GoodBlock b := by
  intro lines
  induction lines with
  | nil =>
    intro buf blanks _ b hb
    exact flushPar_good buf b hb
  | cons line rest ih =>
    intro buf blanks hinv b hb
    rcases detect_strip_cases line with ⟨hblank, hr⟩ | ⟨hs, hr⟩ | hr | hr | hr | hr
    · rw [parseLines_cons_blank hr] at hb
      have hcond : ¬(3 ≤ blanks + 1 ∧ buf ≠ []) := by
        rintro ⟨h3, hne⟩
        exact hne (hinv (by omega))
      rw [if_neg hcond] at hb
      rcases List.mem_append.mp hb with h | h
      · exact flushPar_good buf b h
      · exact ih [] (blanks + 1) (fun _ => rfl) b h
    · rw [parseLines_cons_emit hr (by decide) (by decide)] at hb
      rcases List.mem_append.mp hb with h | h
      · rcases List.mem_append.mp h with h2 | h2
        · exact flushPar_good buf b h2
        · rw [List.mem_singleton] at h2
          subst h2
          exact ⟨fun h => by simp at h, fun h => by simp at h,
            fun h => by rcases h with h | h <;> simp at h,
            fun _ => ⟨rfl, hs⟩⟩
      · exact ih [] 0 (fun h => absurd h (by omega)) b h
    · rw [parseLines_cons_emit hr (by decide) (by decide)] at hb
      rcases List.mem_append.mp hb with h | h
      · rcases List.mem_append.mp h with h2 | h2
        · exact flushPar_good buf b h2
        · rw [List.mem_singleton] at h2
          subst h2
          exact ⟨fun h => by simp at h, fun _ => rfl,
            fun h => by rcases h with h | h <;> simp at h,
            fun h => by simp at h⟩
      · exact ih [] 0 (fun h => absurd h (by omega)) b h
    · rw [parseLines_cons_emit hr (by decide) (by decide)] at hb
      rcases List.mem_append.mp hb with h | h
      · rcases List.mem_append.mp h with h2 | h2
        · exact flushPar_good buf b h2
        · rw [List.mem_singleton] at h2
          subst h2
          exact ⟨fun h => by simp at h, fun h => by simp at h,
            fun _ => rfl, fun h => by simp at h⟩
      · exact ih [] 0 (fun h => absurd h (by omega)) b h
    · rw [parseLines_cons_emit hr (by decide) (by decide)] at hb
      rcases List.mem_append.mp hb with h | h
      · rcases List.mem_append.mp h with h2 | h2
        · exact flushPar_good buf b h2
        · rw [List.mem_singleton] at h2
          subst h2
          exact ⟨fun h => by simp at h, fun h => by simp at h,
            fun _ => rfl, fun h => by simp at h⟩
      · exact ih [] 0 (fun h => absurd h (by omega)) b h
    · rw [parseLines_cons_par hr] at hb
      exact ih (buf ++ [strip line]) 0 (fun h => absurd h (by omega)) b hb

/-- C2: no prose is lost or duplicated: the alphanumeric tokens of the
space-separated concatenation of the texts of all Paragraph and heading
blocks emitted by the parser are exactly the alphanumeric tokens of the
source manuscript, in order. -/
theorem c2_no_prose_lost (content : List Char) :
    tokens (joinSpace (proseTexts (parse_manuscript content))) = tokens content := by
  have h1 : tokens (joinSpace (proseTexts (parse_manuscript content))) =
      flatTokens (proseTexts (parse_manuscript content)) := by
    rw [show joinSpace (proseTexts (parse_manuscript content)) =
      joinSep ' ' (proseTexts (parse_manuscript content)) from rfl]
    exact tokens_joinSep (show isAlnum ' ' = false by decide) _
  rw [h1, parse_manuscript, parseLines_tokens (splitOnNl content) [] 0,
    show flatTokens ([] : List (List Char)) = [] from rfl, List.nil_append,
    flatTokens_splitOnNl]

/-- Counterexample for C4: Paragraph blocks carry the dataclass default
level 1 (not 0), and an ornament-line SceneBreak block carries the ornament
text `"***"` (not the empty string). -/
theorem c4_counterexample :
    parse_manuscript (("hello").data) =
      [{ content_type := ContentType.PARAGRAPH, text := ("hello").data, level := 1 }] ∧
    parse_manuscript (("***").data) =
      [{ content_type := ContentType.SCENE_BREAK, text := ("***").data, level := 0 }] ∧
    ((parse_manuscript (("hello").data)).all
      (fun b => !(b.content_type == ContentType.PARAGRAPH) || b.level == 0)) = false ∧
    ((parse_manuscript (("***").data)).all
      (fun b => !(b.content_type == ContentType.SCENE_BREAK) || b.text.isEmpty)) = false := by
  refine ⟨by decide, by decide, by decide, by decide⟩

/-- C4 (amended): every block emitted by `parse_manuscript` satisfies the
field constraints that the code actually maintains: Paragraph blocks have
non-empty text and level 1 (the dataclass default, not 0), chapter headings
level 1, front/back-matter headings level 2, and SceneBreak blocks level 0
with the triggering ornament line (non-empty, matching the scene-break
pattern) as text rather than the empty string. -/
theorem c4_block_invariants_amended (content : List Char) :
    ∀ b ∈ parse_manuscript content, GoodBlock b := by
  intro b hb
  exact parseLines_good (splitOnNl content) [] 0 (fun _ => rfl) b hb

/-- Witness for C4 (amended): the Paragraph block produced for `"hello"` has
non-empty text and level 1. -/
theorem c4_witness :
    ContentBlock.mk ContentType.PARAGRAPH (("hello").data) 1 ∈
      parse_manuscript (("hello").data) ∧
    (("hello").data ≠ ([] : List Char) ∧
      (ContentBlock.mk ContentType.PARAGRAPH (("hello").data) 1).level = 1) := by
  have hmem : ContentBlock.mk ContentType.PARAGRAPH (("hello").data) 1 ∈
      parse_manuscript (("hello").data) := by decide
  exact ⟨hmem, (c4_block_invariants_amended (("hello").data) _ hmem).1 rfl⟩

/-- Witness for C10: a chapter heading preceded by spaces classifies the same
as its stripped form. -/
theorem c10_witness :
    strip (("   CHAPTER ONE").data) ≠ [] ∧
    detect_content_type (("   CHAPTER ONE").data) =
      detect_content_type (strip (("   CHAPTER ONE").data)) :=
  ⟨by decide, c10_strip_invariance (("   CHAPTER ONE").data) (by decide)⟩

end BookForge
